import Mathlib

/-!
Verification development for the import-resolution and execution-bridge core
of a browser-based three.js playground.  The definitions below are a shallow
embedding of the TypeScript sources:

* `src/utils/importParser.ts`  — `parseImports`, `removeComments`,
  `normalizePackageName` (the variant with the `examples/jsm` special case
  and the `new URL` fallback);
* `src/utils/cdnResolver.ts`   — `resolveCDN`, `resolveImports`,
  `checkVersionConflicts`;
* `src/utils/importmapGenerator.ts` — `BASE_IMPORTMAP`, `generateImportmap`,
  `getUserImports`, `validateImportmap`;
* `src/App.tsx`                — `runCode` and the two `message` listeners
  (the iframe listener with the origin guard, and the FlowBoard listener).

JavaScript strings are modelled as Lean `String`/`List Char`; JavaScript
objects (`Record<string,string>`) as association lists with JS assignment
semantics (update in place, else append); thrown exceptions as `Except`;
regular-expression scans as explicit maximal-munch matchers executed at
every position left to right, consuming each match (the `g`-flag protocol).
Regex scanning uses a fuel argument equal to the input length so that every
definition is structural and kernel-evaluable; one fuel unit is spent per
scanned position, and every successful match consumes at least one
character, so the fuel never runs out before the input does.
-/

/-! ### Character helpers -/

/-- The apostrophe character (JS `'`). -/
def apos : Char := Char.ofNat 39

/-- The double-quote character (JS `"`). -/
def dquote : Char := Char.ofNat 34

/-- The opening curly brace character. -/
def braceOpen : Char := Char.ofNat 123

/-- The closing curly brace character. -/
def braceClose : Char := Char.ofNat 125

/-- JS regex `\s` (the ASCII part relevant to source text). -/
def isJsSpace (c : Char) : Bool :=
  c = ' ' ∨ c = '\t' ∨ c = '\n' ∨ c = '\r' ∨ c = Char.ofNat 11 ∨ c = Char.ofNat 12

/-- JS regex `\w`: `[A-Za-z0-9_]`. -/
def isWordChar (c : Char) : Bool :=
  c.isAlphanum ∨ c = '_'

/-- A JS quote character as used by the scanner character class. -/
def isQuote (c : Char) : Bool :=
  c = apos ∨ c = dquote

/-- JS regex `[\d.]`, the version-character class of `extractVersionFromUrl`. -/
def isVerChar (c : Char) : Bool :=
  c.isDigit ∨ c = '.'

/-! ### Generic string utilities (JS method models) -/

/-- The suffix of `s` after the first occurrence of `sub`, if any
    (the search part of JS `String.prototype.includes` / leftmost regex
    literal match). -/
def afterFirstList (sub : List Char) : List Char → Option (List Char)
  | [] => if sub = [] then some [] else none
  | c :: rest =>
    if sub.isPrefixOf (c :: rest) then some ((c :: rest).drop sub.length)
    else afterFirstList sub rest

/-- JS `s.includes(sub)`. -/
def jsIncludes (s sub : String) : Bool :=
  (afterFirstList sub.toList s.toList).isSome

/-- JS `s.startsWith(p)`. -/
def jsStartsWith (s p : String) : Bool :=
  p.toList.isPrefixOf s.toList

/-- JS `s.endsWith(p)`. -/
def jsEndsWith (s p : String) : Bool :=
  p.toList.isSuffixOf s.toList

/-- JS `s.trim()` on a character list. -/
def jsTrimList (cs : List Char) : List Char :=
  ((cs.dropWhile isJsSpace).reverse.dropWhile isJsSpace).reverse

/-- JS `s.trim()`. -/
def jsTrim (s : String) : String :=
  String.mk (jsTrimList s.toList)

/-- Split a character list at every occurrence of the character `sep`
    (JS `s.split(sep)` for a one-character separator). -/
def splitOnCharList (sep : Char) : List Char → List (List Char)
  | [] => [[]]
  | c :: rest =>
    let r := splitOnCharList sep rest
    if c = sep then [] :: r
    else
      match r with
      | [] => [[c]]
      | piece :: more => (c :: piece) :: more

/-! ### `importParser.ts`: data model -/

/-- The `type` field of an `ImportStatement`
    (`'namespace' | 'named' | 'default'`; the side-effect-only shape is
    recorded by the source as `'default'` with no specifiers). -/
inductive ImportType where
  | nsImport
  | named
  | defaultType
deriving DecidableEq, Inhabited

/-- `ImportStatement` of `importParser.ts`. -/
structure ImportStatement where
  source : String
  specifiers : List String
  isUrl : Bool
  version : Option String
  rawStatement : String
  type : ImportType
deriving DecidableEq, Inhabited

/-- One raw regex match: the full matched text, capture group 1, and the
    optional capture group 2 (`none` for the two-group side-effect
    pattern, whose match array has length 2). -/
structure RawMatch where
  full : List Char
  g1 : List Char
  g2 : Option (List Char)
deriving DecidableEq

/-! ### `importParser.ts`: comment removal -/

/-- Find the first `*/` and return the suffix after it
    (the lazy tail of regex `\/\*[\s\S]*?\*\//`). -/
def findClose : List Char → Option (List Char)
  | [] => none
  | [_] => none
  | c1 :: c2 :: rest =>
    if c1 = '*' ∧ c2 = '/' then some rest
    else findClose (c2 :: rest)

/-- `code.replace(/\/\*[\s\S]*?\*\//g, '')`: strip every lazily-matched
    block comment; an unterminated `/*` is left in place (the regex finds
    no match there). -/
def sbFuel : Nat → List Char → List Char
  | 0, s => s
  | Nat.succ fuel, s =>
    match s with
    | [] => []
    | c1 :: rest =>
      match rest with
      | c2 :: rest2 =>
        if c1 = '/' ∧ c2 = '*' then
          match findClose rest2 with
          | some r => sbFuel fuel r
          | none => s
        else c1 :: sbFuel fuel rest
      | [] => [c1]

/-- Does the rest of the current line (`[^\n]*`) contain a quote?  This is
    the body of the negative lookahead `(?![^\n]*['"])`. -/
def lineHasQuote (cs : List Char) : Bool :=
  (cs.takeWhile (fun c => c ≠ '\n')).any isQuote

/-- `result.replace(/\/\/(?![^\n]*['"])[^\n]*/g, '')`: strip a `//` comment
    to the end of its line, but only when no quote character occurs in the
    remainder of that line. -/
def slFuel : Nat → List Char → List Char
  | 0, s => s
  | Nat.succ fuel, s =>
    match s with
    | [] => []
    | c1 :: rest =>
      match rest with
      | c2 :: rest2 =>
        if c1 = '/' ∧ c2 = '/' ∧ ¬ lineHasQuote rest2 then
          slFuel fuel (rest2.dropWhile (fun c => c ≠ '\n'))
        else c1 :: slFuel fuel rest
      | [] => [c1]

/-- `removeComments` of `importParser.ts`: block comments first, then
    guarded line comments. -/
def removeComments (code : String) : String :=
  let l1 := sbFuel code.toList.length code.toList
  String.mk (slFuel l1.length l1)

/-! ### `importParser.ts`: the four import regexes

Each matcher tries one pattern anchored at the current position and, on
success, returns the raw match and the unconsumed suffix.  The character
classes involved (`\s`, `\w`, `[^'"]`, `[^}]`) are pairwise disjoint from
the literals that follow them, so greedy maximal munch coincides with the
regex backtracking semantics. -/

/-- Match a literal. -/
def lexLit (lit : List Char) (s : List Char) : Option (List Char) :=
  if lit.isPrefixOf s then some (s.drop lit.length) else none

/-- Match `\s+` (greedy, at least one character). -/
def lexWS1 : List Char → Option (List Char)
  | [] => none
  | c :: rest => if isJsSpace c then some (rest.dropWhile isJsSpace) else none

/-- Match `(\w+)` (greedy, at least one character). -/
def lexWord1 (s : List Char) : Option (List Char × List Char) :=
  let w := s.takeWhile isWordChar
  if w = [] then none else some (w, s.drop w.length)

/-- Match `['"]([^'"]+)['"]` — an opening quote, a non-empty run of
    non-quote characters, and any closing quote. -/
def lexQuoted (s : List Char) : Option (List Char × List Char) :=
  match s with
  | [] => none
  | c :: rest =>
    if isQuote c then
      let content := rest.takeWhile (fun d => ¬ isQuote d)
      if content = [] then none
      else
        match rest.drop content.length with
        | d :: r2 => if isQuote d then some (content, r2) else none
        | [] => none
    else none

/-- `import\s+\*\s+as\s+(\w+)\s+from\s+['"]([^'"]+)['"]`. -/
def tryNamespacePat (s : List Char) : Option (RawMatch × List Char) := do
  let r1 ← lexLit "import".toList s
  let r2 ← lexWS1 r1
  let r3 ← lexLit ['*'] r2
  let r4 ← lexWS1 r3
  let r5 ← lexLit "as".toList r4
  let r6 ← lexWS1 r5
  let (name, r7) ← lexWord1 r6
  let r8 ← lexWS1 r7
  let r9 ← lexLit "from".toList r8
  let r10 ← lexWS1 r9
  let (src, r11) ← lexQuoted r10
  some (⟨s.take (s.length - r11.length), name, some src⟩, r11)

/-- `import\s+\{([^}]+)\}\s+from\s+['"]([^'"]+)['"]`. -/
def tryNamedPat (s : List Char) : Option (RawMatch × List Char) := do
  let r1 ← lexLit "import".toList s
  let r2 ← lexWS1 r1
  let r3 ← lexLit [braceOpen] r2
  let content := r3.takeWhile (fun d => d ≠ braceClose)
  if content = [] then none
  else do
    let r4 ← lexLit [braceClose] (r3.drop content.length)
    let r5 ← lexWS1 r4
    let r6 ← lexLit "from".toList r5
    let r7 ← lexWS1 r6
    let (src, r8) ← lexQuoted r7
    some (⟨s.take (s.length - r8.length), content, some src⟩, r8)

/-- `import\s+(\w+)\s+from\s+['"]([^'"]+)['"]`. -/
def tryDefaultPat (s : List Char) : Option (RawMatch × List Char) := do
  let r1 ← lexLit "import".toList s
  let r2 ← lexWS1 r1
  let (name, r3) ← lexWord1 r2
  let r4 ← lexWS1 r3
  let r5 ← lexLit "from".toList r4
  let r6 ← lexWS1 r5
  let (src, r7) ← lexQuoted r6
  some (⟨s.take (s.length - r7.length), name, some src⟩, r7)

/-- `import\s+['"]([^'"]+)['"]` (side-effect-only; match array length 2). -/
def trySidePat (s : List Char) : Option (RawMatch × List Char) := do
  let r1 ← lexLit "import".toList s
  let r2 ← lexWS1 r1
  let (src, r3) ← lexQuoted r2
  some (⟨s.take (s.length - r3.length), src, none⟩, r3)

/-- Run one global (`g`-flag) regex over the text: at each position try the
    pattern; a match is recorded and scanning resumes after it, otherwise
    scanning advances one character.  `fuel` is spent one unit per step and
    is initialised to the text length. -/
def scanFuel (f : List Char → Option (RawMatch × List Char)) :
    Nat → List Char → List RawMatch
  | 0, _ => []
  | Nat.succ fuel, s =>
    match f s with
    | some (m, r) => m :: scanFuel f fuel r
    | none =>
      match s with
      | [] => []
      | _ :: rest => scanFuel f fuel rest

/-- All matches of one pattern over the text. -/
def scanAll (f : List Char → Option (RawMatch × List Char)) (s : List Char) :
    List RawMatch :=
  scanFuel f s.length s

/-! ### `importParser.ts`: building `ImportStatement`s -/

/-- `extractVersionFromUrl`: regex `@([\d.]+)` — the run of version
    characters after the first `@` that is followed by at least one of
    them. -/
def extractVersionScan : List Char → Option String
  | [] => none
  | c :: rest =>
    if c = '@' then
      match rest with
      | d :: _ =>
        if isVerChar d then some (String.mk (rest.takeWhile isVerChar))
        else extractVersionScan rest
      | [] => none
    else extractVersionScan rest

/-- `extractVersionFromUrl` of `importParser.ts`. -/
def extractVersionFromUrl (url : String) : Option String :=
  extractVersionScan url.toList

/-- `createImportStatement` of `importParser.ts`. -/
def createImportStatement (source : String) (specifiers : List String)
    (type : ImportType) (rawStatement : String) : ImportStatement :=
  let isUrl := jsStartsWith source "http://" ∨ jsStartsWith source "https://"
  { source := source
    specifiers := specifiers
    isUrl := isUrl
    version := if isUrl then extractVersionFromUrl source else none
    rawStatement := rawStatement
    type := type }

/-- Does `\s+as\s+` match at the head of the list?  (The split regex of the
    named-specifier handling.) -/
def wsAsWsAt (s : List Char) : Bool :=
  (do
    let r1 ← lexWS1 s
    let r2 ← lexLit "as".toList r1
    let _ ← lexWS1 r2
    some ()).isSome

/-- JS `piece.split(/\s+as\s+/)[0]`: the prefix before the leftmost
    whitespace-delimited `as`. -/
def takeBeforeAs : List Char → List Char
  | [] => []
  | c :: rest => if wsAsWsAt (c :: rest) then [] else c :: takeBeforeAs rest

/-- `specifiersStr.split(',').map(s => s.trim().split(/\s+as\s+/)[0])`. -/
def splitSpecifiers (g1 : List Char) : List String :=
  (splitOnCharList ',' g1).map (fun piece => String.mk (takeBeforeAs (jsTrimList piece)))

/-- `parseImportMatch` of `importParser.ts`.  The branch is chosen by
    inspecting the full matched text (`includes('* as')`, `includes('{')`),
    exactly as the source does; when a two-group (side-effect) match falls
    into the namespace or named branch, the source reads `match[2]` which is
    `undefined` and `createImportStatement` throws — modelled as `.error`. -/
def parseImportMatch (m : RawMatch) : Except String ImportStatement :=
  let full := String.mk m.full
  if jsIncludes full "* as" then
    match m.g2 with
    | some src =>
      .ok (createImportStatement (String.mk src) [String.mk m.g1] ImportType.nsImport full)
    | none => .error "TypeError: source is undefined"
  else if m.full.contains braceOpen then
    match m.g2 with
    | some src =>
      .ok (createImportStatement (String.mk src) (splitSpecifiers m.g1) ImportType.named full)
    | none => .error "TypeError: source is undefined"
  else
    match m.g2 with
    | some src =>
      .ok (createImportStatement (String.mk src) [String.mk m.g1] ImportType.defaultType full)
    | none => .ok (createImportStatement (String.mk m.g1) [] ImportType.defaultType full)

/-- `isDuplicate` of `importParser.ts`: same `source` and same `type`. -/
def isDuplicate (imports : List ImportStatement) (newImport : ImportStatement) : Bool :=
  imports.any (fun imp => imp.source = newImport.source ∧ imp.type = newImport.type)

/-- `parseImports` of `importParser.ts`: strip comments, run the four
    regexes in their fixed order, and accumulate non-duplicate statements.
    A thrown `TypeError` inside the loop aborts the whole parse, as in the
    source (there is no try/catch inside `parseImports`). -/
def parseImports (code : String) : Except String (List ImportStatement) := do
  let cs := (removeComments code).toList
  let raws :=
    scanAll tryNamespacePat cs ++ scanAll tryNamedPat cs ++
      scanAll tryDefaultPat cs ++ scanAll trySidePat cs
  raws.foldlM (fun acc m => do
    let parsed ← parseImportMatch m
    pure (if isDuplicate acc parsed then acc else acc ++ [parsed])) []

/-! ### `importParser.ts`: `normalizePackageName` -/

/-- The hostname fragments of the four CDN url patterns, in source order. -/
def cdnHostPatterns : List String :=
  ["cdn.skypack.dev/", "unpkg.com/", "cdn.jsdelivr.net/npm/", "esm.sh/"]

/-- One CDN pattern `host(@?[^@/]+)`: capture after the leftmost occurrence
    of the host fragment. -/
def cdnCapture (source : String) (hostPat : String) : Option String :=
  match afterFirstList hostPat.toList source.toList with
  | none => none
  | some [] => none
  | some (c :: cs) =>
    if c = '@' then
      let run := cs.takeWhile (fun d => d ≠ '@' ∧ d ≠ '/')
      if run = [] then none else some (String.mk ('@' :: run))
    else
      let run := (c :: cs).takeWhile (fun d => d ≠ '@' ∧ d ≠ '/')
      if run = [] then none else some (String.mk run)

/-- The first CDN pattern that matches, in source order. -/
def firstCdnCapture (source : String) : Option String :=
  (cdnHostPatterns.filterMap (cdnCapture source)).head?

/-- The special three.js rewrite: regex `\/examples\/jsm\/(.+)` on a source
    that contains both `three` and `/examples/jsm/`: capture everything
    after the leftmost occurrence (specifiers are assumed newline-free, so
    `.` spans the rest), then append `.js` when missing. -/
def threeAddonsRewrite (source : String) : Option String :=
  if jsIncludes source "three" ∧ jsIncludes source "/examples/jsm/" then
    match afterFirstList "/examples/jsm/".toList source.toList with
    | some [] => none
    | some rest =>
      let addonPath := String.mk rest
      some ("three/addons/" ++
        (if jsEndsWith addonPath ".js" then addonPath else addonPath ++ ".js"))
    | none => none
  else none

/-- The `pathname` of `new URL(source)` for an `http(s)` source: the part
    between the authority and any `?`/`#`, defaulting to `/`; `none` when
    the authority is empty (`new URL` throws). -/
def urlPathname (source : String) : Option String :=
  let cs := source.toList
  let rest :=
    if jsStartsWith source "http://" then cs.drop 7
    else if jsStartsWith source "https://" then cs.drop 8
    else cs
  let authority := rest.takeWhile (fun c => c ≠ '/' ∧ c ≠ '?' ∧ c ≠ '#')
  if authority = [] then none
  else
    let path := (rest.drop authority.length).takeWhile (fun c => c ≠ '?' ∧ c ≠ '#')
    some (String.mk (if path = [] then ['/'] else path))

/-- `normalizePackageName` of `importParser.ts` (the variant with the
    `examples/jsm` special case).  `none` models the `TypeError` thrown by
    `new URL` on an unparseable source. -/
def normalizePackageName (source : String) : Option String :=
  if ¬ jsStartsWith source "http://" ∧ ¬ jsStartsWith source "https://" then
    some source
  else
    match threeAddonsRewrite source with
    | some r => some r
    | none =>
      match firstCdnCapture source with
      | some r => some r
      | none =>
        match urlPathname source with
        | none => none
        | some path =>
          let pathParts := (splitOnCharList '/' path.toList).filter (fun p => p ≠ [])
          match pathParts with
          | p0 :: _ => some (String.mk (p0.takeWhile (fun c => c ≠ '@')))
          | [] => some source

/-! ### `cdnResolver.ts` -/

/-- `CDNConfig` of `cdnResolver.ts` (the CDN identifiers are strings). -/
structure CDNConfig where
  primary : String
  fallbacks : List String
deriving DecidableEq, Inhabited

/-- `DEFAULT_CDN_CONFIG`. -/
def DEFAULT_CDN_CONFIG : CDNConfig :=
  ⟨"skypack", ["unpkg", "esm.sh"]⟩

/-- `ResolvedImport` of `cdnResolver.ts`. -/
structure ResolvedImport where
  packageName : String
  url : String
  version : String
  cdn : String
  originalSource : String
deriving DecidableEq, Inhabited

/-- `detectCDN` of `cdnResolver.ts`. -/
def detectCDN (url : String) : String :=
  if jsIncludes url "cdn.skypack.dev" then "skypack"
  else if jsIncludes url "unpkg.com" then "unpkg"
  else if jsIncludes url "cdn.jsdelivr.net" then "jsdelivr"
  else if jsIncludes url "esm.sh" then "esm.sh"
  else "unknown"

/-- `buildCdnUrl` of `cdnResolver.ts` (the `default` switch arm falls back
    to the Skypack template). -/
def buildCdnUrl (packageName version cdn : String) : String :=
  let versionStr := if version = "latest" then "" else "@" ++ version
  if cdn = "skypack" then "https://cdn.skypack.dev/" ++ packageName ++ versionStr
  else if cdn = "unpkg" then "https://unpkg.com/" ++ packageName ++ versionStr
  else if cdn = "jsdelivr" then "https://cdn.jsdelivr.net/npm/" ++ packageName ++ versionStr
  else if cdn = "esm.sh" then "https://esm.sh/" ++ packageName ++ versionStr
  else "https://cdn.skypack.dev/" ++ packageName ++ versionStr

/-- `resolveFromCDN` of `cdnResolver.ts` (called with
    `importStmt.source` as the package name). -/
def resolveFromCDN (packageName : String) (config : CDNConfig)
    (requestedVersion : Option String) : ResolvedImport :=
  let version := requestedVersion.getD "latest"
  { packageName := packageName
    url := buildCdnUrl packageName version config.primary
    version := version
    cdn := config.primary
    originalSource := packageName }

/-- `resolveCDN` of `cdnResolver.ts`.  `normalizeUrlImport` recomputes
    `normalizePackageName(importStmt.source)`, which is deterministic, so
    the single computation at the top serves both uses.  `.error` models a
    `TypeError` thrown by `new URL` inside `normalizePackageName`. -/
def resolveCDN (importStmt : ImportStatement) (config : CDNConfig) :
    Except String ResolvedImport :=
  match normalizePackageName importStmt.source with
  | none => .error "TypeError: Invalid URL"
  | some packageName =>
    if packageName = "three" ∨ jsStartsWith packageName "three/" then
      .ok { packageName := packageName
            url := "<use-existing-importmap>"
            version := "0.157.0"
            cdn := "jsdelivr"
            originalSource := importStmt.source }
    else if importStmt.isUrl then
      .ok { packageName := packageName
            url := importStmt.source
            version := importStmt.version.getD "latest"
            cdn := detectCDN importStmt.source
            originalSource := importStmt.source }
    else
      .ok (resolveFromCDN importStmt.source config importStmt.version)

/-- The placeholder pushed by `resolveImports` when `resolveCDN` throws. -/
def resolutionFailedEntry (importStmt : ImportStatement) : ResolvedImport :=
  { packageName := importStmt.source
    url := "<resolution-failed>"
    version := "unknown"
    cdn := "none"
    originalSource := importStmt.source }

/-- `resolveImports` of `cdnResolver.ts`: the per-reference try/catch means
    the batch always yields exactly one entry per input and never throws. -/
def resolveImports (imports : List ImportStatement) (config : CDNConfig) :
    List ResolvedImport :=
  imports.map (fun importStmt =>
    match resolveCDN importStmt config with
    | .ok r => r
    | .error _ => resolutionFailedEntry importStmt)

/-! ### `cdnResolver.ts`: version-conflict detection -/

/-- One step of the `Map<string, Set<string>>` build in
    `checkVersionConflicts`: JS `Map` preserves insertion order of keys and
    `Set` preserves insertion order of distinct values. -/
def addVersion (acc : List (String × List String)) (pkg ver : String) :
    List (String × List String) :=
  match acc with
  | [] => [(pkg, [ver])]
  | (p, vs) :: rest =>
    if p = pkg then (p, if vs.contains ver then vs else vs ++ [ver]) :: rest
    else (p, vs) :: addVersion rest pkg ver

/-- The `packageVersions` map of `checkVersionConflicts`. -/
def buildVersions (resolved : List ResolvedImport) : List (String × List String) :=
  resolved.foldl (fun acc r => addVersion acc r.packageName r.version) []

/-- The warning text `Version conflict for "pkg": v1, v2, ...`. -/
def versionConflictWarning (pkg : String) (vs : List String) : String :=
  "Version conflict for " ++ String.mk (dquote :: pkg.toList ++ [dquote]) ++ ": " ++
    String.intercalate ", " vs

/-- The warning text of the special three.js arm of `checkVersionConflicts`. -/
def threeMismatchWarning (v : String) : String :=
  "Three.js version mismatch: requested " ++ v ++ ", IDE uses 0.157.0"

/-- `checkVersionConflicts` of `cdnResolver.ts`: one warning per package
    with more than one distinct version, then one warning per resolved
    entry whose `packageName` is `three` with a version other than
    `0.157.0` and `latest`. -/
def checkVersionConflicts (resolved : List ResolvedImport) : List String :=
  ((buildVersions resolved).filter (fun e => 1 < e.2.length)).map
      (fun e => versionConflictWarning e.1 e.2) ++
    (resolved.filter (fun r =>
        r.packageName = "three" ∧ r.version ≠ "0.157.0" ∧ r.version ≠ "latest")).map
      (fun r => threeMismatchWarning r.version)

/-! ### `importmapGenerator.ts` -/

/-- `Importmap`: the `imports` record, as an ordered association list with
    unique keys. -/
structure Importmap where
  imports : List (String × String)
deriving DecidableEq, Inhabited

/-- `BASE_IMPORTMAP` of `importmapGenerator.ts`. -/
def BASE_IMPORTMAP : Importmap :=
  ⟨[("three", "https://cdn.jsdelivr.net/npm/three@0.157.0/build/three.module.js"),
    ("three/addons/", "https://cdn.jsdelivr.net/npm/three@0.157.0/examples/jsm/"),
    ("gsap", "https://cdn.skypack.dev/gsap"),
    ("lil-gui", "https://cdn.skypack.dev/lil-gui")]⟩

/-- The `baseKeys` set of `generateImportmap` / `getUserImports`. -/
def baseKeys : List String := BASE_IMPORTMAP.imports.map Prod.fst

/-- JS object assignment `obj[k] = v`: update the value in place when the
    key exists, otherwise append the pair. -/
def setKV : List (String × String) → String → String → List (String × String)
  | [], k, v => [(k, v)]
  | (k0, v0) :: rest, k, v =>
    if k0 = k then (k0, v) :: rest else (k0, v0) :: setKV rest k v

/-- The `isDuplicate` test of `generateImportmap`: the key is a base key,
    or it extends a base key that ends in `/`. -/
def isDuplicateOfBase (key : String) : Bool :=
  baseKeys.contains key ∨
    baseKeys.any (fun baseKey => jsEndsWith baseKey "/" ∧ jsStartsWith key baseKey)

/-- One iteration of the `generateImportmap` loop. -/
def generateImportmapStep (acc : List (String × String))
    (resolvedImport : ResolvedImport) : List (String × String) :=
  if resolvedImport.url = "<use-existing-importmap>" then acc
  else if resolvedImport.url = "<resolution-failed>" then acc
  else if isDuplicateOfBase resolvedImport.packageName then acc
  else setKV acc resolvedImport.packageName resolvedImport.url

/-- `generateImportmap` of `importmapGenerator.ts`. -/
def generateImportmap (resolved : List ResolvedImport) (includeBase : Bool) :
    Importmap :=
  ⟨resolved.foldl generateImportmapStep
    (if includeBase then BASE_IMPORTMAP.imports else [])⟩

/-- `getUserImports` of `importmapGenerator.ts`. -/
def getUserImports (importmap : Importmap) : List (String × String) :=
  importmap.imports.filter (fun kv => ¬ baseKeys.contains kv.1)

/-- The error text for an empty (after trimming) key. -/
def invalidKeyError (key : String) : String :=
  "Invalid import key: " ++ String.mk (dquote :: key.toList ++ [dquote])

/-- The error text for an empty (after trimming) value. -/
def invalidValueError (key value : String) : String :=
  "Invalid import value for key " ++ String.mk (dquote :: key.toList ++ [dquote]) ++
    ": " ++ String.mk (dquote :: value.toList ++ [dquote])

/-- The error text for a value lacking an `http(s)` scheme. -/
def suspiciousUrlError (key value : String) : String :=
  "Import URL for " ++ String.mk (dquote :: key.toList ++ [dquote]) ++
    " should start with http:// or https://: " ++
    String.mk (dquote :: value.toList ++ [dquote])

/-- The errors one `imports` entry contributes in `validateImportmap`, in
    push order: trimmed-empty key, trimmed-empty value, then (for a truthy,
    i.e. non-empty, value) a missing `http(s)` scheme. -/
def entryErrors (key value : String) : List String :=
  (if jsTrim key = "" then [invalidKeyError key] else []) ++
    (if jsTrim value = "" then [invalidValueError key value] else []) ++
      (if value ≠ "" ∧ ¬ jsStartsWith value "http://" ∧ ¬ jsStartsWith value "https://"
       then [suspiciousUrlError key value] else [])

/-- `validateImportmap` of `importmapGenerator.ts` on a well-typed map (the
    two type guards at its top cannot fire on a well-typed `Importmap`). -/
def validateImportmap (importmap : Importmap) : List String :=
  importmap.imports.foldl (fun errors kv => errors ++ entryErrors kv.1 kv.2) []

/-! ### `App.tsx`: data model of the execution bridge -/

/-- `ErrorInfo` of `App.tsx`. -/
structure ErrorInfo where
  message : String
  lineno : Option Nat
  colno : Option Nat
  stack : Option String
deriving DecidableEq, Inhabited

/-- One console argument as it arrives over the boundary.  An object with
    the `__isError` marker carries name/message/stack; other objects are
    carried in their `JSON.stringify` form; primitives in their `String()`
    form. -/
inductive ConsoleArg where
  | errObj (name message : String) (stack : Option String)
  | obj (json : String)
  | prim (s : String)
deriving DecidableEq

/-- The `payload` of an inbound message; each constructor carries the
    fields the dispatch code reads for that payload shape.  Vector and
    image payload fields irrelevant to dispatch decisions are carried as
    opaque strings. -/
inductive Payload where
  | errorInfo (e : ErrorInfo)
  | capture (imageData : Option String) (width height : Option Nat)
      (error : Option String)
  | camera (position target fov : Option String) (error : Option String)
  | shader (imageData shaderType nodeId : Option String) (success : Option Bool)
      (error : Option String)
  | consoleMsg (level : String) (args : List ConsoleArg)
  | request (action resolution nodeId cameraState : Option String)
      (imageData shaderType uniforms : Option String)
  | noPayload
deriving DecidableEq

/-- Duck-typed field reads (`payload.imageData` etc. are `undefined` on a
    payload of another shape). -/
def Payload.captureImageData : Payload → Option String
  | .capture i _ _ _ => i
  | _ => none

/-- `payload.error` as read by the `canvasCaptured` branch. -/
def Payload.captureError : Payload → Option String
  | .capture _ _ _ e => e
  | _ => none

/-- `payload.position` as read by the `cameraState` branch. -/
def Payload.cameraPosition : Payload → Option String
  | .camera p _ _ _ => p
  | _ => none

/-- `payload.error` as read by the `cameraState` branch. -/
def Payload.cameraError : Payload → Option String
  | .camera _ _ _ e => e
  | _ => none

/-- `payload.level` as read by the `console` branch. -/
def Payload.consoleLevel : Payload → String
  | .consoleMsg l _ => l
  | _ => ""

/-- `payload.args` as read by the `console` branch. -/
def Payload.consoleArgs : Payload → List ConsoleArg
  | .consoleMsg _ a => a
  | _ => []

/-- `payload?.action` as read by the FlowBoard listener. -/
def Payload.requestAction : Payload → Option String
  | .request a _ _ _ _ _ _ => a
  | _ => none

/-- `payload.nodeId` as read by the `getCamera` branch. -/
def Payload.requestNodeId : Payload → Option String
  | .request _ _ n _ _ _ _ => n
  | _ => none

/-- `payload.cameraState` as read by the `loadCamera` branch. -/
def Payload.requestCameraState : Payload → Option String
  | .request _ _ _ c _ _ _ => c
  | _ => none

/-- `event.data` (`MessageData` of `App.tsx`; a missing `type` is carried
    as the falsy empty string, matching the `type && ...` guards). -/
structure MessageData where
  type : String
  payload : Payload
deriving DecidableEq

/-- An inbound `message` event: its `origin` and its `data`. -/
structure MessageEvent where
  origin : String
  data : MessageData
deriving DecidableEq

/-- One entry of the `consoleMessages` React state (the nondeterministic
    `Date.now()+random` id and the timestamp are omitted; no dispatch
    decision reads them). -/
structure ConsoleEntry where
  level : String
  message : String
  args : List ConsoleArg
deriving DecidableEq

/-- The host-side React state the two message listeners read or write. -/
structure HostState where
  error : Option ErrorInfo
  isIframeReady : Bool
  consoleMessages : List ConsoleEntry
  messageIdCounter : Nat
  pendingCameraNodeId : Option String
  isFlowBoardConnected : Bool
deriving DecidableEq

/-- The initial host state. -/
def initialHostState : HostState :=
  { error := none
    isIframeReady := false
    consoleMessages := []
    messageIdCounter := 0
    pendingCameraNodeId := none
    isFlowBoardConnected := false }

/-- Observable side effects of the host handlers: messages posted across a
    boundary (payload summarised by its `type` tag), console output, a
    `runCode()` invocation, or the `executeCode` post with its optional
    module map. -/
inductive Effect where
  | postToIframe (msgType : String)
  | postToOpener (targetOrigin msgType : String)
  | runCodeRequested
  | consoleLog (s : String)
  | consoleWarn (s : String)
  | consoleError (s : String)
  | postExecute (code : String) (importmap : Option Importmap)
deriving DecidableEq

/-- `FLOWBOARD_ORIGINS` of `App.tsx`. -/
def FLOWBOARD_ORIGINS : List String :=
  ["http://localhost:5173", "https://jweese001.github.io"]

/-! ### `App.tsx`: console noise suppression -/

/-- Within one line, does `a` occur with `b` somewhere after it?
    (`a.*b` for newline-free `a`, `b`.) -/
def lineMatchSeq (a b : String) (line : List Char) : Bool :=
  match afterFirstList a.toList line with
  | some rest => (afterFirstList b.toList rest).isSome
  | none => false

/-- `/^\d+% loaded$/` on a lowercased message: one or more digits followed
    exactly by `% loaded`. -/
def isPercentLoaded (l : List Char) : Bool :=
  let digits := l.takeWhile Char.isDigit
  digits ≠ [] ∧ l.drop digits.length = "% loaded".toList

/-- `CONSOLE_IGNORE_PATTERNS.some(p => p.test(message))`: the four
    case-insensitive patterns of `App.tsx` (`context lost`,
    `webgl.*context`, `three\.webglrenderer.*context`, `^\d+% loaded$`;
    `.` does not span newlines, so the two `.*` patterns are tested per
    line). -/
def shouldIgnoreConsole (message : String) : Bool :=
  let l := message.toLower
  jsIncludes l "context lost" ∨
    (splitOnCharList '\n' l.toList).any (lineMatchSeq "webgl" "context") ∨
      (splitOnCharList '\n' l.toList).any (lineMatchSeq "three.webglrenderer" "context") ∨
        isPercentLoaded l.toList

/-- The per-argument formatting of the `console` branch:
    `__isError` objects as `name: message` plus a stack on a new line when
    the stack is truthy; other objects via their serialized form;
    primitives via `String()`. -/
def formatConsoleArg : ConsoleArg → String
  | .errObj n m st =>
    n ++ ": " ++ m ++ (match st with
      | some s => if s = "" then "" else "\n" ++ s
      | none => "")
  | .obj j => j
  | .prim s => s

/-! ### `App.tsx`: the iframe message listener

The listener registered by the second `useEffect`: it discards any event
whose `origin` differs from `window.location.origin`, then dispatches on
`event.data.type`. -/

/-- The iframe message listener of `App.tsx` (the one with the origin
    guard).  Returns the updated host state and the emitted effects. -/
def handleIframeMessage (hostOrigin : String) (hasOpener : Bool)
    (st : HostState) (event : MessageEvent) : HostState × List Effect :=
  if event.origin ≠ hostOrigin then (st, [])
  else
    let t := event.data.type
    let payload := event.data.payload
    if t = "error" then
      ({ st with error := match payload with | .errorInfo e => some e | _ => none }, [])
    else if t = "ready" then
      ({ st with isIframeReady := true }, [])
    else if t = "reset" then
      (st, [Effect.runCodeRequested])
    else if t = "canvasCaptured" then
      if hasOpener ∧ payload.captureImageData.isSome then
        ({ st with isFlowBoardConnected := true },
          FLOWBOARD_ORIGINS.map (fun o => Effect.postToOpener o "capture") ++
            [Effect.consoleLog "Sent capture to FlowBoard"])
      else if payload.captureError.isSome then
        (st, [Effect.consoleError ("Canvas capture failed: " ++ payload.captureError.getD "")])
      else if ¬ hasOpener then
        (st, [Effect.consoleWarn
          "FlowBoard window not available. Open IDE from FlowBoard to enable sending."])
      else (st, [])
    else if t = "cameraState" then
      if hasOpener ∧ payload.cameraPosition.isSome ∧ st.pendingCameraNodeId.isSome then
        ({ st with pendingCameraNodeId := none },
          FLOWBOARD_ORIGINS.map (fun o => Effect.postToOpener o "cameraState") ++
            [Effect.consoleLog "Sent camera state to FlowBoard"])
      else if payload.cameraError.isSome then
        (st, [Effect.consoleError ("Camera state capture failed: " ++ payload.cameraError.getD "")])
      else (st, [])
    else if t = "shaderResult" then
      if hasOpener then
        (st, FLOWBOARD_ORIGINS.map (fun o => Effect.postToOpener o "shaderResult") ++
          [Effect.consoleLog "Sent shader result to FlowBoard"])
      else (st, [])
    else if t = "console" then
      let args := payload.consoleArgs
      let message := String.intercalate " " (args.map formatConsoleArg)
      if ¬ shouldIgnoreConsole message then
        ({ st with
            consoleMessages := st.consoleMessages ++ [⟨payload.consoleLevel, message, args⟩]
            messageIdCounter := st.messageIdCounter + 1 }, [])
      else (st, [])
    else (st, [])

/-! ### `App.tsx`: the FlowBoard message listener

The listener registered by the first `useEffect`.  Its own comment reads
"Accept from any origin but verify message structure (we check
window.opener for security)": there is no origin guard, and dispatch is on
`type` and `payload?.action` alone. -/

/-- The FlowBoard message listener of `App.tsx` (no origin guard). -/
def handleFlowBoardMessage (hasOpener iframeAvailable : Bool)
    (st : HostState) (event : MessageEvent) : HostState × List Effect :=
  let t := event.data.type
  let payload := event.data.payload
  let logEff :=
    if t ≠ "" ∧ t ≠ "console" then
      [Effect.consoleLog ("IDE received message: " ++ event.origin ++ " " ++ t)]
    else []
  let captureEff :=
    if t = "request" ∧ payload.requestAction = some "capture" then
      Effect.consoleLog "FlowBoard capture request received" ::
        (if iframeAvailable then
          [Effect.consoleLog "Sending captureCanvas to iframe...",
           Effect.postToIframe "captureCanvas"]
         else [Effect.consoleWarn "iframeRef not available"])
    else []
  let pongEff :=
    if t = "ping" ∧ hasOpener then
      FLOWBOARD_ORIGINS.map (fun o => Effect.postToOpener o "pong")
    else []
  let stepCam : HostState × List Effect :=
    if t = "request" ∧ payload.requestAction = some "getCamera" then
      if iframeAvailable then
        ({ st with pendingCameraNodeId := payload.requestNodeId },
          [Effect.consoleLog "FlowBoard getCamera request received",
           Effect.postToIframe "getCameraState"])
      else (st, [Effect.consoleLog "FlowBoard getCamera request received"])
    else (st, [])
  let loadCamEff :=
    if t = "request" ∧ payload.requestAction = some "loadCamera" then
      Effect.consoleLog "FlowBoard loadCamera request received" ::
        (if iframeAvailable ∧ payload.requestCameraState.isSome then
          [Effect.consoleLog "Sending setCameraState to iframe...",
           Effect.postToIframe "setCameraState"]
         else [Effect.consoleWarn "Cannot send: iframeRef or cameraState missing"])
    else []
  let shaderEff :=
    if t = "request" ∧ payload.requestAction = some "applyShader" then
      Effect.consoleLog "FlowBoard applyShader request received" ::
        (if iframeAvailable then [Effect.postToIframe "applyShader"]
         else [Effect.consoleWarn "Cannot process shader: iframe not available"])
    else []
  (stepCam.1, logEff ++ captureEff ++ pongEff ++ stepCam.2 ++ loadCamEff ++ shaderEff)

/-! ### `App.tsx`: `runCode` -/

/-- `runCode` of `App.tsx`: parse the editor text; with no imports (or
    when the import pipeline throws) post the code alone; otherwise
    resolve, build the derived map (`includeBase = false`), log external
    packages and version warnings, and post code plus map. -/
def runCode (iframeAvailable isIframeReady : Bool) (code : String)
    (config : CDNConfig) : List Effect :=
  if iframeAvailable ∧ isIframeReady then
    match parseImports code with
    | .error _ =>
      [Effect.consoleError "Failed to resolve imports", Effect.postExecute code none]
    | .ok imports =>
      if 0 < imports.length then
        let resolved := resolveImports imports config
        let importmap := generateImportmap resolved false
        let externalPackages := getUserImports importmap
        let logEffs :=
          if 0 < externalPackages.length then
            [Effect.consoleLog ("Loaded external packages: " ++
              String.intercalate ", " (externalPackages.map Prod.fst))]
          else []
        let warnings := checkVersionConflicts resolved
        let warnEffs :=
          if 0 < warnings.length then
            [Effect.consoleWarn ("Version warnings: " ++ String.intercalate "\n" warnings)]
          else []
        logEffs ++ warnEffs ++ [Effect.postExecute code (some importmap)]
      else [Effect.postExecute code none]
  else []

/-! ### Generic lemmas about the JS string models -/

instance {ε α : Type} [DecidableEq ε] [DecidableEq α] : DecidableEq (Except ε α) := fun x y =>
  match x, y with
  | .ok a, .ok b =>
    if h : a = b then isTrue (by rw [h]) else isFalse (by intro he; cases he; exact h rfl)
  | .error a, .error b =>
    if h : a = b then isTrue (by rw [h]) else isFalse (by intro he; cases he; exact h rfl)
  | .ok _, .error _ => isFalse (by intro he; cases he)
  | .error _, .ok _ => isFalse (by intro he; cases he)

/-- Every character of a list-prefix occurs in the larger list. -/
theorem isPrefixOf_mem : ∀ {l m : List Char}, l.isPrefixOf m = true → ∀ a ∈ l, a ∈ m := by
  intro l
  induction l with
  | nil => intro m _ a ha; cases ha
  | cons b bs ih =>
    intro m h a ha
    cases m with
    | nil => simp [List.isPrefixOf] at h
    | cons c cs =>
      simp only [List.isPrefixOf, Bool.and_eq_true, beq_iff_eq] at h
      rcases List.mem_cons.mp ha with rfl | ha
      · exact h.1 ▸ List.mem_cons_self _ _
      · exact List.mem_cons.mpr (Or.inr (ih h.2 a ha))

/-- A non-empty list-prefix fixes the head of the larger list. -/
theorem isPrefixOf_head : ∀ {l m : List Char}, l.isPrefixOf m = true → l ≠ [] →
    m.head? = l.head? := by
  intro l m h hne
  cases l with
  | nil => exact absurd rfl hne
  | cons b bs =>
    cases m with
    | nil => simp [List.isPrefixOf] at h
    | cons c cs =>
      simp only [List.isPrefixOf, Bool.and_eq_true, beq_iff_eq] at h
      simp [h.1]

/-- A string without a slash has no `http(s)://` scheme. -/
theorem noSlash_not_http {t : String} (h : ∀ c ∈ t.toList, c ≠ '/') :
    jsStartsWith t "http://" = false ∧ jsStartsWith t "https://" = false := by
  constructor
  · cases hx : jsStartsWith t "http://" with
    | false => rfl
    | true =>
      exact absurd rfl (h '/' (isPrefixOf_mem hx '/' (by decide)))
  · cases hx : jsStartsWith t "https://" with
    | false => rfl
    | true =>
      exact absurd rfl (h '/' (isPrefixOf_mem hx '/' (by decide)))

/-- A string beginning with `t` has no `http(s)://` scheme. -/
theorem tHead_not_http {t : String} (h : t.toList.head? = some 't') :
    jsStartsWith t "http://" = false ∧ jsStartsWith t "https://" = false := by
  constructor
  · cases hx : jsStartsWith t "http://" with
    | false => rfl
    | true =>
      have := isPrefixOf_head hx (by decide)
      rw [h] at this
      simp at this
  · cases hx : jsStartsWith t "https://" with
    | false => rfl
    | true =>
      have := isPrefixOf_head hx (by decide)
      rw [h] at this
      simp at this

/-- Pieces produced by the character split never contain the separator. -/
theorem mem_splitOnCharList {sep : Char} : ∀ {l p : List Char},
    p ∈ splitOnCharList sep l → ∀ c ∈ p, c ≠ sep := by
  intro l
  induction l with
  | nil =>
    intro p hp
    simp [splitOnCharList] at hp
    subst hp; simp
  | cons a as ih =>
    intro p hp
    simp only [splitOnCharList] at hp
    by_cases ha : a = sep
    · rw [if_pos ha] at hp
      rcases List.mem_cons.mp hp with rfl | h
      · simp
      · exact ih h
    · rw [if_neg ha] at hp
      cases hr : splitOnCharList sep as with
      | nil =>
        rw [hr] at hp
        simp at hp
        subst hp
        intro c hc
        simp at hc
        subst hc; exact ha
      | cons piece more =>
        rw [hr] at hp
        rcases List.mem_cons.mp hp with rfl | h
        · intro c hc
          rcases List.mem_cons.mp hc with rfl | hc
          · exact ha
          · exact ih (hr ▸ List.mem_cons_self _ _) c hc
        · exact ih (hr ▸ List.mem_cons.mpr (Or.inr h))

/-! ### Structure of `normalizePackageName` outputs -/

/-- A source that is not an `http(s)` url normalizes to itself. -/
theorem normalize_of_not_url {t : String} (h1 : jsStartsWith t "http://" = false)
    (h2 : jsStartsWith t "https://" = false) : normalizePackageName t = some t := by
  simp [normalizePackageName, h1, h2]

/-- The three.js rewrite always produces a `three/addons/`-headed name. -/
theorem threeAddonsRewrite_shape {s r : String} (h : threeAddonsRewrite s = some r) :
    ∃ x, r = "three/addons/" ++ x := by
  unfold threeAddonsRewrite at h
  split at h
  · split at h
    · exact absurd h (by simp)
    · exact ⟨_, (Option.some.injEq _ _ ▸ h).symm⟩
    · exact absurd h (by simp)
  · exact absurd h (by simp)

/-- A CDN-pattern capture never contains a slash. -/
theorem cdnCapture_no_slash {s p r : String} (h : cdnCapture s p = some r) :
    ∀ c ∈ r.toList, c ≠ '/' := by
  unfold cdnCapture at h
  split at h
  · exact absurd h (by simp)
  · exact absurd h (by simp)
  · rename_i c cs heq
    split at h
    · simp only [] at h
      split at h
      · exact absurd h (by simp)
      · rename_i hat hrun
        have hr : r = String.mk ('@' :: cs.takeWhile (fun d => d ≠ '@' ∧ d ≠ '/')) :=
          ((Option.some.injEq _ _).mp h).symm
        subst hr
        intro d hd
        rcases List.mem_cons.mp hd with rfl | hd
        · decide
        · have := List.mem_takeWhile_imp hd
          simp at this
          exact this.2
    · simp only [] at h
      split at h
      · exact absurd h (by simp)
      · rename_i hat hrun
        have hr : r = String.mk ((c :: cs).takeWhile (fun d => d ≠ '@' ∧ d ≠ '/')) :=
          ((Option.some.injEq _ _).mp h).symm
        subst hr
        intro d hd
        have := List.mem_takeWhile_imp hd
        simp at this
        exact this.2

/-- The first-matching CDN capture never contains a slash. -/
theorem firstCdnCapture_no_slash {s r : String} (h : firstCdnCapture s = some r) :
    ∀ c ∈ r.toList, c ≠ '/' := by
  unfold firstCdnCapture at h
  have hm : r ∈ (cdnHostPatterns.filterMap (cdnCapture s)) := by
    cases he : cdnHostPatterns.filterMap (cdnCapture s) with
    | nil => rw [he] at h; simp at h
    | cons x xs =>
      rw [he] at h
      simp at h
      exact h ▸ (he ▸ List.mem_cons_self x xs)
  rcases List.mem_filterMap.mp hm with ⟨p, _, hp⟩
  exact cdnCapture_no_slash hp

/-- Every `normalizePackageName` output is either the input itself or a
    non-url name (so the function maps it to itself). -/
theorem normalize_output {s t : String} (h : normalizePackageName s = some t) :
    t = s ∨ (jsStartsWith t "http://" = false ∧ jsStartsWith t "https://" = false) := by
  unfold normalizePackageName at h
  split at h
  · exact Or.inl ((Option.some.injEq _ _).mp h).symm
  · split at h
    · rename_i r hr
      have ht : t = r := ((Option.some.injEq _ _).mp h).symm
      subst ht
      rcases threeAddonsRewrite_shape hr with ⟨x, hx⟩
      subst hx
      exact Or.inr (tHead_not_http rfl)
    · split at h
      · rename_i r hr
        have ht : t = r := ((Option.some.injEq _ _).mp h).symm
        subst ht
        exact Or.inr (noSlash_not_http (firstCdnCapture_no_slash hr))
      · split at h
        · exact absurd h (by simp)
        · rename_i path hpath
          simp only [] at h
          split at h
          · rename_i p0 rest hparts
            have ht : t = String.mk (p0.takeWhile (fun c => c ≠ '@')) :=
              ((Option.some.injEq _ _).mp h).symm
            subst ht
            refine Or.inr (noSlash_not_http ?_)
            intro c hc
            have hcp0 : c ∈ p0 := List.takeWhile_subset _ hc
            have hp0 : p0 ∈ (splitOnCharList '/' path.toList).filter (fun p => p ≠ []) := by
              rw [hparts]; exact List.mem_cons_self _ _
            have hp0' : p0 ∈ splitOnCharList '/' path.toList :=
              List.mem_of_mem_filter hp0
            exact mem_splitOnCharList hp0' c hcp0
          · exact Or.inl ((Option.some.injEq _ _).mp h).symm

/-- C10 (amended): `normalizePackageName` is idempotent on its domain —
whenever it returns a value, applying it to that value returns the value
unchanged — and every output is either a non-url name (carrying no
`http(s)` scheme: a bare or sub-path package name) or the source returned
verbatim by a passthrough branch.  (The claim's unconditional "its output
is never an http(s) url" is refuted separately: the `new URL` fallback can
return the source url itself.) -/
theorem c10_normalizePackageName_idempotent {s t : String}
    (h : normalizePackageName s = some t) :
    normalizePackageName t = some t ∧
      ((jsStartsWith t "http://" = false ∧ jsStartsWith t "https://" = false) ∨
        t = s) := by
  rcases normalize_output h with rfl | ⟨h1, h2⟩
  · exact ⟨h, Or.inr rfl⟩
  · exact ⟨normalize_of_not_url h1 h2, Or.inl ⟨h1, h2⟩⟩

/-- C10 witness: the idempotence theorem applied to the resolution of a
    versioned three.js CDN url; the output `three` is a fixed point and a
    non-url name. -/
theorem c10_idempotent_witness :
    normalizePackageName "three" = some "three" ∧
      ((jsStartsWith "three" "http://" = false ∧
          jsStartsWith "three" "https://" = false) ∨
        "three" = "https://cdn.skypack.dev/three@0.150.0") := by
  have h : normalizePackageName "https://cdn.skypack.dev/three@0.150.0" = some "three" := by
    decide
  exact c10_normalizePackageName_idempotent h

/-- C10 counterexample: the url fallback of `normalizePackageName` returns
the source unchanged when the url has no path segment, so the output can
be an `https://` url, contradicting the claim's "never an http(s) URL". -/
theorem c10_normalize_output_can_be_url :
    normalizePackageName "https://example.com" = some "https://example.com" ∧
    jsStartsWith "https://example.com" "https://" = true := by
  decide

/-! ### C1: origin validation of the execution bridge -/

/-- C1 (amended, the part that holds): the iframe message listener checks
`event.origin` against the expected origin before anything else; a
foreign-origin message never reaches its type dispatch — the host state is
unchanged and no message is posted, logged, or forwarded. -/
theorem c1_iframe_listener_drops_foreign_origin
    (hostOrigin : String) (hasOpener : Bool) (st : HostState) (event : MessageEvent)
    (h : event.origin ≠ hostOrigin) :
    handleIframeMessage hostOrigin hasOpener st event = (st, []) := by
  unfold handleIframeMessage
  rw [if_pos h]

/-- C1 witness: a concrete foreign-origin event is dropped whole. -/
theorem c1_iframe_listener_witness :
    handleIframeMessage "https://ide.example" true initialHostState
      ⟨"https://evil.example", ⟨"ready", Payload.noPayload⟩⟩ = (initialHostState, []) :=
  c1_iframe_listener_drops_foreign_origin _ _ _ _ (by decide)

/-- A FlowBoard capture request arriving from a foreign origin. -/
def foreignCaptureEvent : MessageEvent :=
  ⟨"https://evil.example",
    ⟨"request", Payload.request (some "capture") (some "1920x1080") none none none none none⟩⟩

/-- C1 counterexample: the FlowBoard message listener has no origin guard.
A `request/capture` message from a foreign origin reaches its type
dispatch and a `captureCanvas` message is forwarded to the iframe on its
behalf, while the iframe listener (the origin-checking one) would have
dropped the same event. -/
theorem c1_flowboard_listener_dispatches_foreign_origin :
    foreignCaptureEvent.origin ≠ "https://ide.example" ∧
    Effect.postToIframe "captureCanvas" ∈
      (handleFlowBoardMessage true true initialHostState foreignCaptureEvent).2 ∧
    handleIframeMessage "https://ide.example" true initialHostState foreignCaptureEvent =
      (initialHostState, []) := by
  decide

/-! ### C7: per-reference totality of batch resolution -/

/-- C7: `resolveImports` yields exactly one `ResolvedImport` per input
reference, in input order, and never throws: an input whose resolution
throws contributes the `<resolution-failed>` placeholder at its own
position and the remaining references are still resolved. -/
theorem c7_resolveImports_one_entry_per_reference
    (imports : List ImportStatement) (config : CDNConfig) :
    (resolveImports imports config).length = imports.length ∧
    ∀ i : Nat, (resolveImports imports config)[i]? =
      (imports[i]?).map (fun stmt =>
        match resolveCDN stmt config with
        | .ok r => r
        | .error _ => resolutionFailedEntry stmt) := by
  refine ⟨by simp [resolveImports], fun i => ?_⟩
  simp [resolveImports, List.getElem?_map]

/-! ### C9: module-map validation -/

/-- Trim-empty lists are all-whitespace. -/
theorem jsTrimList_eq_nil {cs : List Char} (h : jsTrimList cs = []) :
    ∀ c ∈ cs, isJsSpace c = true := by
  unfold jsTrimList at h
  have h2 : (cs.dropWhile isJsSpace).reverse.dropWhile isJsSpace = [] := by
    rwa [List.reverse_eq_nil_iff] at h
  have h3 := List.dropWhile_eq_nil_iff.mp h2
  intro c hc
  have hsplit := List.takeWhile_append_dropWhile isJsSpace cs
  have hmem : c ∈ cs.takeWhile isJsSpace ∨ c ∈ cs.dropWhile isJsSpace := by
    rw [← hsplit] at hc
    exact List.mem_append.mp hc
  rcases hmem with h1 | h1
  · exact List.mem_takeWhile_imp h1
  · exact h3 c (List.mem_reverse.mpr h1)

/-- A url with an `http(s)` scheme does not trim to the empty string. -/
theorem jsTrim_ne_empty_of_http {v : String}
    (h : jsStartsWith v "http://" = true ∨ jsStartsWith v "https://" = true) :
    jsTrim v ≠ "" := by
  intro hempty
  have hnil : jsTrimList v.toList = [] := by
    have := congrArg String.toList hempty
    simpa [jsTrim] using this
  have hall := jsTrimList_eq_nil hnil
  have hmem : 'h' ∈ v.toList := by
    rcases h with h | h
    · exact isPrefixOf_mem h 'h' (by decide)
    · exact isPrefixOf_mem h 'h' (by decide)
  exact absurd (hall 'h' hmem) (by decide)

/-- `validateImportmap` flattens the per-entry error lists in entry order. -/
theorem validateImportmap_eq_flatten (m : Importmap) :
    validateImportmap m = (m.imports.map (fun kv => entryErrors kv.1 kv.2)).flatten := by
  unfold validateImportmap
  generalize m.imports = l
  suffices h : ∀ acc, l.foldl (fun errors kv => errors ++ entryErrors kv.1 kv.2) acc =
      acc ++ (l.map (fun kv => entryErrors kv.1 kv.2)).flatten by
    simpa using h []
  induction l with
  | nil => intro acc; simp
  | cons kv rest ih => intro acc; simp [ih, List.append_assoc]

/-- What it takes for one entry to contribute no error. -/
theorem entryErrors_nil_parts {k v : String} (h : entryErrors k v = []) :
    ¬ jsTrim k = "" ∧ ¬ jsTrim v = "" ∧
      (v = "" ∨ jsStartsWith v "http://" = true ∨ jsStartsWith v "https://" = true) := by
  unfold entryErrors at h
  rcases List.append_eq_nil.mp h with ⟨h12, h3⟩
  rcases List.append_eq_nil.mp h12 with ⟨h1, h2⟩
  refine ⟨?_, ?_, ?_⟩
  · intro hc; rw [if_pos hc] at h1; exact absurd h1 (by simp)
  · intro hc; rw [if_pos hc] at h2; exact absurd h2 (by simp)
  · by_cases hv : v = ""
    · exact Or.inl hv
    · cases hx : jsStartsWith v "http://" with
      | true => exact Or.inr (Or.inl rfl)
      | false =>
        cases hy : jsStartsWith v "https://" with
        | true => exact Or.inr (Or.inr rfl)
        | false =>
          rw [if_pos ⟨hv, by simp [hx], by simp [hy]⟩] at h3
          exact absurd h3 (by simp)

/-- A well-keyed entry whose value carries an `http(s)` scheme contributes
    no error. -/
theorem entryErrors_nil_of_good {k v : String} (hk : jsTrim k ≠ "")
    (hv : jsStartsWith v "http://" = true ∨ jsStartsWith v "https://" = true) :
    entryErrors k v = [] := by
  have hvt : jsTrim v ≠ "" := jsTrim_ne_empty_of_http hv
  unfold entryErrors
  rw [if_neg hk, if_neg hvt, if_neg]
  · simp
  · intro hc
    rcases hv with h | h
    · exact hc.2.1 h
    · exact hc.2.2 h

/-- An error contributed by one entry appears in the whole error list. -/
theorem mem_validate_of_entry {m : Importmap} {k v e : String}
    (hkv : (k, v) ∈ m.imports) (he : e ∈ entryErrors k v) :
    e ∈ validateImportmap m := by
  rw [validateImportmap_eq_flatten]
  exact List.mem_flatten.mpr ⟨entryErrors k v, List.mem_map.mpr ⟨(k, v), hkv, rfl⟩, he⟩

/-- An empty key contributes its `Invalid import key` error. -/
theorem invalidKey_mem_entry {v : String} :
    invalidKeyError "" ∈ entryErrors "" v := by
  unfold entryErrors
  rw [if_pos (show jsTrim "" = "" from rfl)]
  exact List.mem_append.mpr (Or.inl (List.mem_append.mpr (Or.inl (List.mem_cons_self _ _))))

/-- An empty value contributes its `Invalid import value` error. -/
theorem invalidValue_mem_entry {k : String} :
    invalidValueError k "" ∈ entryErrors k "" := by
  unfold entryErrors
  rw [if_pos (show jsTrim "" = "" from rfl)]
  exact List.mem_append.mpr (Or.inl (List.mem_append.mpr (Or.inr (List.mem_cons_self _ _))))

/-- A non-empty schemeless value contributes its `Import URL` error. -/
theorem suspicious_mem_entry {k v : String} (hv : v ≠ "")
    (h1 : jsStartsWith v "http://" = false) (h2 : jsStartsWith v "https://" = false) :
    suspiciousUrlError k v ∈ entryErrors k v := by
  unfold entryErrors
  rw [if_pos (show v ≠ "" ∧ ¬ jsStartsWith v "http://" = true ∧
      ¬ jsStartsWith v "https://" = true from ⟨hv, by simp [h1], by simp [h2]⟩)]
  exact List.mem_append.mpr (Or.inr (List.mem_cons_self _ _))

/-- C9 (amended): an entry with an empty key, an empty value, or a value
with no `http(s)` scheme makes `validateImportmap` return a non-empty
error list identifying the offending entry — the error string that names
the offending key (and value) is a member of the list: `invalidKeyError`
for the empty key, `invalidValueError` for the empty value,
`suspiciousUrlError` for the schemeless non-empty value.  Conversely a
map whose keys are all non-blank (non-empty after trimming whitespace —
plain non-emptiness is not enough, see the counterexample) and whose
values all carry an `http(s)` scheme validates to the empty list. -/
theorem c9_validateImportmap_errors (m : Importmap) :
    (∀ k v, (k, v) ∈ m.imports →
      (k = "" ∨ v = "" ∨
        (jsStartsWith v "http://" = false ∧ jsStartsWith v "https://" = false)) →
      validateImportmap m ≠ [] ∧
        (k = "" → invalidKeyError k ∈ validateImportmap m) ∧
        (v = "" → invalidValueError k v ∈ validateImportmap m) ∧
        (v ≠ "" → jsStartsWith v "http://" = false →
          jsStartsWith v "https://" = false →
          suspiciousUrlError k v ∈ validateImportmap m)) ∧
    ((∀ k v, (k, v) ∈ m.imports →
        jsTrim k ≠ "" ∧
          (jsStartsWith v "http://" = true ∨ jsStartsWith v "https://" = true)) →
      validateImportmap m = []) := by
  constructor
  · intro k v hmem hbad
    have hkey : k = "" → invalidKeyError k ∈ validateImportmap m := by
      intro hk; subst hk
      exact mem_validate_of_entry hmem invalidKey_mem_entry
    have hval : v = "" → invalidValueError k v ∈ validateImportmap m := by
      intro hv; subst hv
      exact mem_validate_of_entry hmem invalidValue_mem_entry
    have hsus : v ≠ "" → jsStartsWith v "http://" = false →
        jsStartsWith v "https://" = false →
        suspiciousUrlError k v ∈ validateImportmap m := by
      intro hv h1 h2
      exact mem_validate_of_entry hmem (suspicious_mem_entry hv h1 h2)
    refine ⟨?_, hkey, hval, hsus⟩
    rcases hbad with rfl | rfl | ⟨h1, h2⟩
    · exact List.ne_nil_of_mem (hkey rfl)
    · exact List.ne_nil_of_mem (hval rfl)
    · by_cases hv : v = ""
      · exact List.ne_nil_of_mem (hval hv)
      · exact List.ne_nil_of_mem (hsus hv h1 h2)
  · intro hgood
    rw [validateImportmap_eq_flatten]
    rw [List.flatten_eq_nil_iff]
    intro l hl
    rcases List.mem_map.mp hl with ⟨⟨k, v⟩, hkv, rfl⟩
    have := hgood k v hkv
    exact entryErrors_nil_of_good this.1 this.2

/-- C9 counterexample: a whitespace-only key is a non-empty string and its
value is an absolute https url, yet `validateImportmap` reports an error,
so "all keys non-empty and all values http(s) urls" does not imply an
empty error list (the code trims keys before the emptiness test). -/
theorem c9_whitespace_key_rejected :
    " " ≠ "" ∧ jsStartsWith "https://example.com/lib.js" "https://" = true ∧
    validateImportmap ⟨[(" ", "https://example.com/lib.js")]⟩ =
      [invalidKeyError " "] := by
  decide

/-- C9 witness: both halves at concrete maps; the bad map's error list
    contains the error naming the offending entry. -/
theorem c9_validate_witness :
    validateImportmap ⟨[("lodash", "not-a-url")]⟩ ≠ [] ∧
    suspiciousUrlError "lodash" "not-a-url" ∈
      validateImportmap ⟨[("lodash", "not-a-url")]⟩ ∧
    validateImportmap ⟨[("lodash", "https://cdn.skypack.dev/lodash")]⟩ = [] := by
  have h := (c9_validateImportmap_errors ⟨[("lodash", "not-a-url")]⟩).1
    "lodash" "not-a-url" (by decide) (Or.inr (Or.inr (by decide)))
  refine ⟨h.1, h.2.2.2 (by decide) (by decide) (by decide), ?_⟩
  exact (c9_validateImportmap_errors _).2 (by
    intro k v hm
    simp at hm
    rcases hm with ⟨rfl, rfl⟩
    exact ⟨by decide, Or.inr (by decide)⟩)

/-! ### C6: the zero-imports short circuit -/

/-- A failed boolean `import`-prefix test refutes the propositional one. -/
theorem not_import_head {s : List Char} (hp : "import".toList.isPrefixOf s = false) :
    ¬ (['i', 'm', 'p', 'o', 'r', 't'] <+: s) := by
  intro hps
  rw [show ['i', 'm', 'p', 'o', 'r', 't'] = "import".toList from rfl,
    ← List.isPrefixOf_iff_prefix, hp] at hps
  simp at hps

/-- A namespace-pattern match starts with the literal `import`. -/
theorem tryNamespacePat_import {s : List Char} {m : RawMatch} {r : List Char}
    (h : tryNamespacePat s = some (m, r)) : "import".toList.isPrefixOf s = true := by
  cases hp : "import".toList.isPrefixOf s with
  | true => rfl
  | false => simp [tryNamespacePat, lexLit, not_import_head hp] at h

/-- A named-pattern match starts with the literal `import`. -/
theorem tryNamedPat_import {s : List Char} {m : RawMatch} {r : List Char}
    (h : tryNamedPat s = some (m, r)) : "import".toList.isPrefixOf s = true := by
  cases hp : "import".toList.isPrefixOf s with
  | true => rfl
  | false => simp [tryNamedPat, lexLit, not_import_head hp] at h

/-- A default-pattern match starts with the literal `import`. -/
theorem tryDefaultPat_import {s : List Char} {m : RawMatch} {r : List Char}
    (h : tryDefaultPat s = some (m, r)) : "import".toList.isPrefixOf s = true := by
  cases hp : "import".toList.isPrefixOf s with
  | true => rfl
  | false => simp [tryDefaultPat, lexLit, not_import_head hp] at h

/-- A side-effect-pattern match starts with the literal `import`. -/
theorem trySidePat_import {s : List Char} {m : RawMatch} {r : List Char}
    (h : trySidePat s = some (m, r)) : "import".toList.isPrefixOf s = true := by
  cases hp : "import".toList.isPrefixOf s with
  | true => rfl
  | false => simp [trySidePat, lexLit, not_import_head hp] at h

/-- A text with no occurrence of `import` yields no matches at all. -/
theorem scanFuel_eq_nil {f : List Char → Option (RawMatch × List Char)}
    (hf : ∀ s m r, f s = some (m, r) → "import".toList.isPrefixOf s = true) :
    ∀ fuel s, afterFirstList "import".toList s = none → scanFuel f fuel s = [] := by
  intro fuel
  induction fuel with
  | zero => intro s _; rfl
  | succ n ih =>
    intro s hs
    have hfs : f s = none := by
      cases hx : f s with
      | none => rfl
      | some p =>
        obtain ⟨m, r⟩ := p
        have hpre := hf s m r hx
        cases s with
        | nil => simp [List.isPrefixOf] at hpre
        | cons c cs =>
          unfold afterFirstList at hs
          rw [if_pos hpre] at hs
          cases hs
    cases s with
    | nil => simp [scanFuel, hfs]
    | cons c cs =>
      simp only [scanFuel, hfs]
      apply ih
      unfold afterFirstList at hs
      split at hs
      · cases hs
      · exact hs

/-- C6: a source text whose comment-stripped form contains no `import`
token parses to the empty reference sequence, and a run with an empty
reference sequence short-circuits: the host posts the execution message
with the source text alone (no module map), invoking neither the resolver
nor the map builder. -/
theorem c6_no_imports_short_circuit (code : String) (config : CDNConfig) :
    (jsIncludes (removeComments code) "import" = false → parseImports code = .ok []) ∧
    (parseImports code = .ok [] →
      runCode true true code config = [Effect.postExecute code none]) := by
  constructor
  · intro h
    have hafter : afterFirstList "import".toList (removeComments code).toList = none := by
      unfold jsIncludes at h
      cases hx : afterFirstList "import".toList (removeComments code).toList with
      | none => rfl
      | some _ => rw [hx] at h; cases h
    simp only [parseImports, scanAll]
    rw [scanFuel_eq_nil (fun s m r hh => tryNamespacePat_import hh) _ _ hafter,
        scanFuel_eq_nil (fun s m r hh => tryNamedPat_import hh) _ _ hafter,
        scanFuel_eq_nil (fun s m r hh => tryDefaultPat_import hh) _ _ hafter,
        scanFuel_eq_nil (fun s m r hh => trySidePat_import hh) _ _ hafter]
    rfl
  · intro h
    simp [runCode, h]

/-- C6 witness: a concrete import-free program is posted bare. -/
theorem c6_short_circuit_witness :
    parseImports "const x = 1;" = .ok [] ∧
    runCode true true "const x = 1;" DEFAULT_CDN_CONFIG =
      [Effect.postExecute "const x = 1;" none] := by
  have h1 : parseImports "const x = 1;" = .ok [] :=
    (c6_no_imports_short_circuit "const x = 1;" DEFAULT_CDN_CONFIG).1 (by decide)
  exact ⟨h1, (c6_no_imports_short_circuit "const x = 1;" DEFAULT_CDN_CONFIG).2 h1⟩

/-! ### C8: comment stripping before import scanning -/

/-- With no `*/` inside, the close scan lands exactly on the trailing
    close marker. -/
theorem findClose_append {cs : List Char} (h : afterFirstList ['*', '/'] cs = none) :
    findClose (cs ++ ['*', '/']) = some [] := by
  induction cs with
  | nil => decide
  | cons c cs' ih =>
    unfold afterFirstList at h
    split at h
    · cases h
    · rename_i hnp
      cases cs' with
      | nil =>
        have e : [c] ++ ['*', '/'] = [c, '*', '/'] := rfl
        rw [e]
        simp only [findClose]
        rw [if_neg (by simp)]
        decide
      | cons d cs'' =>
        have e : (c :: d :: cs'') ++ ['*', '/'] = c :: d :: (cs'' ++ ['*', '/']) := rfl
        rw [e]
        simp only [findClose]
        by_cases hcd : c = '*' ∧ d = '/'
        · exfalso
          rcases hcd with ⟨rfl, rfl⟩
          exact hnp (by simp [List.isPrefixOf])
        · rw [if_neg hcd]
          exact ih h

/-- Block stripping of the empty text. -/
theorem sbFuel_nil (fuel : Nat) : sbFuel fuel [] = [] := by
  cases fuel <;> rfl

/-- One whole block comment is stripped to nothing, whatever is inside
    (as long as it holds no early `*/`). -/
theorem sbFuel_strips_whole {cs : List Char} (fuel : Nat)
    (h : afterFirstList ['*', '/'] cs = none) :
    sbFuel (fuel + 1) ('/' :: '*' :: (cs ++ ['*', '/'])) = [] := by
  have e : findClose (cs ++ ['*', '/']) = some [] := findClose_append h
  simp [sbFuel, e, sbFuel_nil]

/-- C8 (amended, the block-comment half): a whole block comment — whatever
it contains, even an entire import statement, provided it has no early
`*/` — is stripped before scanning, so such a text yields no
`ImportStatement` at all. -/
theorem c8_block_comment_no_reference (mid : String)
    (h : jsIncludes mid "*/" = false) :
    removeComments ("/*" ++ mid ++ "*/") = "" ∧
    parseImports ("/*" ++ mid ++ "*/") = .ok [] := by
  have hafter : afterFirstList ['*', '/'] mid.toList = none := by
    unfold jsIncludes at h
    have e : "*/".toList = ['*', '/'] := rfl
    rw [e] at h
    cases hx : afterFirstList ['*', '/'] mid.toList with
    | none => rfl
    | some _ => rw [hx] at h; cases h
  have hl : ("/*" ++ mid ++ "*/").toList = '/' :: '*' :: (mid.toList ++ ['*', '/']) := rfl
  have hsb : sbFuel ('/' :: '*' :: (mid.toList ++ ['*', '/'])).length
      ('/' :: '*' :: (mid.toList ++ ['*', '/'])) = [] := by
    have e2 : ('/' :: '*' :: (mid.toList ++ ['*', '/'])).length =
        ((mid.toList ++ ['*', '/']).length + 1) + 1 := rfl
    rw [e2]
    exact sbFuel_strips_whole _ hafter
  have hrc : removeComments ("/*" ++ mid ++ "*/") = "" := by
    simp only [removeComments, hl, hsb]
    rfl
  refine ⟨hrc, ?_⟩
  simp only [parseImports, hrc]
  rfl

/-- C8 witness: an import statement living entirely inside a block comment
    produces no reference. -/
theorem c8_block_comment_witness :
    removeComments ("/*" ++ " import * as T from \"gsap\" " ++ "*/") = "" ∧
    parseImports ("/*" ++ " import * as T from \"gsap\" " ++ "*/") = .ok [] :=
  c8_block_comment_no_reference " import * as T from \"gsap\" " (by decide)

/-- C8 counterexample: the line-comment regex refuses to strip any `//`
comment whose line still holds a quote character — true of every commented
module reference — so an import inside a line comment survives comment
removal and is extracted as a reference. -/
theorem c8_line_comment_import_extracted :
    removeComments "// import * as THREE from \"three\"" =
      "// import * as THREE from \"three\"" ∧
    parseImports "// import * as THREE from \"three\"" =
      .ok [{ source := "three", specifiers := ["THREE"], isUrl := false,
             version := none,
             rawStatement := "import * as THREE from \"three\"",
             type := ImportType.nsImport }] := by
  decide

/-! ### C5: the bundled-runtime version-mismatch warning -/

/-- The editor text requesting a non-pinned three.js from a CDN url. -/
def c5Code : String := "import * as T from \"https://cdn.skypack.dev/three@0.150.0\""

/-- The reference the analyzer extracts from `c5Code`. -/
def c5Stmt : ImportStatement :=
  { source := "https://cdn.skypack.dev/three@0.150.0"
    specifiers := ["T"]
    isUrl := true
    version := some "0.150.0"
    rawStatement := "import * as T from \"https://cdn.skypack.dev/three@0.150.0\""
    type := ImportType.nsImport }

/-- C5: a reference requesting three.js at `0.150.0` is parsed with that
requested version, but `resolveCDN` replaces it with the pinned `0.157.0`
before `checkVersionConflicts` runs, so the pipeline emits no "version
mismatch with bundled runtime" warning at all — the mismatch arm of
`checkVersionConflicts` (shown firing on a hand-built entry in the last
conjunct) is unreachable through resolution. -/
theorem c5_mismatch_warning_dead_in_pipeline :
    parseImports c5Code = .ok [c5Stmt] ∧
    c5Stmt.version = some "0.150.0" ∧
    resolveImports [c5Stmt] DEFAULT_CDN_CONFIG =
      [{ packageName := "three", url := "<use-existing-importmap>",
         version := "0.157.0", cdn := "jsdelivr",
         originalSource := "https://cdn.skypack.dev/three@0.150.0" }] ∧
    checkVersionConflicts (resolveImports [c5Stmt] DEFAULT_CDN_CONFIG) = [] ∧
    checkVersionConflicts
        [{ packageName := "three", url := "https://cdn.skypack.dev/three@0.150.0",
           version := "0.150.0", cdn := "skypack",
           originalSource := "https://cdn.skypack.dev/three@0.150.0" }] =
      [threeMismatchWarning "0.150.0"] := by
  decide

/-! ### C3: baseline entries survive the merge -/

/-- Setting one key leaves lookups of a different key unchanged. -/
theorem lookup_setKV_ne {k kk v : String} (hne : kk ≠ k) :
    ∀ m : List (String × String), List.lookup k (setKV m kk v) = List.lookup k m := by
  intro m
  induction m with
  | nil =>
    have hk : (k == kk) = false := by simp [Ne.symm hne]
    simp [setKV, List.lookup, hk]
  | cons kv rest ih =>
    obtain ⟨k0, v0⟩ := kv
    by_cases h0 : k0 = kk
    · subst h0
      have hk : (k == k0) = false := by simp [Ne.symm hne]
      simp [setKV, List.lookup, hk]
    · simp [setKV, h0, List.lookup, ih]

/-- The derived-entry loop never rebinds a key present in the baseline. -/
theorem c3_fold_preserves {k v : String} (hbase : baseKeys.contains k = true) :
    ∀ (rs : List ResolvedImport) (acc : List (String × String)),
      List.lookup k acc = some v →
      List.lookup k (rs.foldl generateImportmapStep acc) = some v := by
  intro rs
  induction rs with
  | nil => intro acc h; exact h
  | cons r rest ih =>
    intro acc h
    simp only [List.foldl_cons]
    apply ih
    unfold generateImportmapStep
    split
    · exact h
    · split
      · exact h
      · split
        · exact h
        · rename_i hdup
          have hne : r.packageName ≠ k := by
            intro he
            refine hdup ?_
            simp only [isDuplicateOfBase, he]
            simp
            exact Or.inl (by simpa using hbase)
          rw [lookup_setKV_ne hne]
          exact h

/-- C3: with `includeBase = true`, every baseline binding survives
`generateImportmap` unchanged, whatever the resolved references are; in
particular the result's key set contains every baseline key. -/
theorem c3_baseline_never_evicted (resolved : List ResolvedImport)
    (k v : String) (hmem : (k, v) ∈ BASE_IMPORTMAP.imports) :
    List.lookup k (generateImportmap resolved true).imports = some v := by
  have hbase : baseKeys.contains k = true := by
    have hk : k ∈ baseKeys := List.mem_map.mpr ⟨(k, v), hmem, rfl⟩
    simpa using hk
  have hlook : List.lookup k BASE_IMPORTMAP.imports = some v := by
    simp [BASE_IMPORTMAP] at hmem
    rcases hmem with ⟨rfl, rfl⟩ | ⟨rfl, rfl⟩ | ⟨rfl, rfl⟩ | ⟨rfl, rfl⟩ <;> rfl
  simp only [generateImportmap, if_pos]
  exact c3_fold_preserves hbase resolved _ hlook

/-- C3 witness: a derived reference that collides with the baseline key
    `three` does not evict the baseline url. -/
theorem c3_baseline_witness :
    List.lookup "three" (generateImportmap
      [{ packageName := "three", url := "https://cdn.skypack.dev/three@0.150.0",
         version := "0.150.0", cdn := "skypack", originalSource := "three" }]
      true).imports =
      some "https://cdn.jsdelivr.net/npm/three@0.157.0/build/three.module.js" :=
  c3_baseline_never_evicted _ _ _ (by decide)

/-! ### C2: the always-bundled package defers to the baseline map -/

/-- A name that is `three` or `three/`-namespaced is not an http(s) url. -/
theorem three_not_http {pn : String}
    (h : pn = "three" ∨ jsStartsWith pn "three/" = true) :
    jsStartsWith pn "http://" = false ∧ jsStartsWith pn "https://" = false := by
  rcases h with rfl | h
  · decide
  · have hh : pn.toList.head? = some 't' := by
      unfold jsStartsWith at h
      rw [isPrefixOf_head h (by decide)]
      rfl
    exact tHead_not_http hh

/-- A successful resolution carrying a three-namespaced key can only be
    the defer sentinel. -/
theorem resolveCDN_three_key {stmt : ImportStatement} {config : CDNConfig}
    {r : ResolvedImport} (hok : resolveCDN stmt config = .ok r)
    (h3 : r.packageName = "three" ∨ jsStartsWith r.packageName "three/" = true) :
    r.url = "<use-existing-importmap>" := by
  unfold resolveCDN at hok
  cases hn : normalizePackageName stmt.source with
  | none => rw [hn] at hok; cases hok
  | some pn =>
    simp only [hn] at hok
    by_cases hc : pn = "three" ∨ jsStartsWith pn "three/" = true
    · rw [if_pos hc] at hok
      cases hok
      rfl
    · rw [if_neg hc] at hok
      by_cases hu : stmt.isUrl = true
      · rw [if_pos hu] at hok
        cases hok
        exact absurd h3 hc
      · rw [if_neg hu] at hok
        cases hok
        exfalso
        simp only [resolveFromCDN] at h3
        have hnh := three_not_http h3
        have hnorm := normalize_of_not_url hnh.1 hnh.2
        rw [hn] at hnorm
        injection hnorm with he
        subst he
        exact hc h3

/-- Through the resolver pipeline, every entry with a three-namespaced key
    carries one of the two sentinel urls. -/
theorem resolveImports_three_key {config : CDNConfig}
    (stmts : List ImportStatement) (r : ResolvedImport)
    (hr : r ∈ resolveImports stmts config)
    (h3 : r.packageName = "three" ∨ jsStartsWith r.packageName "three/" = true) :
    r.url = "<use-existing-importmap>" ∨ r.url = "<resolution-failed>" := by
  unfold resolveImports at hr
  rcases List.mem_map.mp hr with ⟨stmt, _, heq⟩
  cases hok : resolveCDN stmt config with
  | ok rr =>
    rw [hok] at heq
    subst heq
    exact Or.inl (resolveCDN_three_key hok h3)
  | error e =>
    rw [hok] at heq
    subst heq
    exact Or.inr rfl

/-- If every entry bound to a key is skipped, the derived-entry fold leaves
    lookups of that key alone. -/
theorem lookup_fold_of_skipped {pn : String} :
    ∀ (rs : List ResolvedImport) (acc : List (String × String)),
      (∀ r ∈ rs, r.packageName = pn →
        r.url = "<use-existing-importmap>" ∨ r.url = "<resolution-failed>") →
      List.lookup pn (rs.foldl generateImportmapStep acc) = List.lookup pn acc := by
  intro rs
  induction rs with
  | nil => intro acc _; rfl
  | cons r rest ih =>
    intro acc hall
    simp only [List.foldl_cons]
    rw [ih _ (fun x hx => hall x (List.mem_cons.mpr (Or.inr hx)))]
    unfold generateImportmapStep
    split
    · rfl
    · split
      · rfl
      · split
        · rfl
        · rename_i h1 h2 hdup
          have hne : r.packageName ≠ pn := by
            intro he
            rcases hall r (List.mem_cons_self _ _) he with hu | hu
            · exact h1 hu
            · exact h2 hu
          rw [lookup_setKV_ne hne]

/-- C2: a reference whose normalized name is the always-bundled package
(`three` exactly, or any `three/` sub-path) resolves to the defer sentinel
`<use-existing-importmap>` with the pinned version `0.157.0`; and for any
resolved batch coming out of the pipeline, `generateImportmap` binds that
key exactly as the baseline portion does — the derived loop never inserts
it. -/
theorem c2_bundled_three_defers (stmt : ImportStatement) (config : CDNConfig)
    (pn : String) (hn : normalizePackageName stmt.source = some pn)
    (h3 : pn = "three" ∨ jsStartsWith pn "three/" = true) :
    resolveCDN stmt config =
      .ok { packageName := pn, url := "<use-existing-importmap>",
            version := "0.157.0", cdn := "jsdelivr", originalSource := stmt.source } ∧
    ∀ (stmts : List ImportStatement) (includeBase : Bool),
      List.lookup pn (generateImportmap (resolveImports stmts config) includeBase).imports =
        List.lookup pn (if includeBase then BASE_IMPORTMAP.imports else []) := by
  constructor
  · simp only [resolveCDN, hn]
    rw [if_pos h3]
  · intro stmts includeBase
    exact lookup_fold_of_skipped _ _ (fun r hr he =>
      resolveImports_three_key stmts r hr (by rw [he]; exact h3))

/-- C2 witness: the bare `three` reference defers and the merged map keeps
    the baseline binding for `three`. -/
theorem c2_bundled_three_witness :
    resolveCDN { source := "three", specifiers := ["T"], isUrl := false,
                 version := none, rawStatement := "r", type := ImportType.nsImport }
        DEFAULT_CDN_CONFIG =
      .ok { packageName := "three", url := "<use-existing-importmap>",
            version := "0.157.0", cdn := "jsdelivr", originalSource := "three" } ∧
    List.lookup "three"
        (generateImportmap (resolveImports
          [{ source := "three", specifiers := ["T"], isUrl := false, version := none,
             rawStatement := "r", type := ImportType.nsImport }] DEFAULT_CDN_CONFIG)
          true).imports =
      List.lookup "three" BASE_IMPORTMAP.imports := by
  have h := c2_bundled_three_defers
    { source := "three", specifiers := ["T"], isUrl := false, version := none,
      rawStatement := "r", type := ImportType.nsImport }
    DEFAULT_CDN_CONFIG "three" (by decide) (Or.inl rfl)
  exact ⟨h.1, h.2 _ true⟩

/-! ### C4: version-conflict detection -/

/-- Unfolding `addVersion` at a matching head key. -/
theorem addVersion_cons_self (q : String) (ws : List String)
    (rest : List (String × List String)) (ver : String) :
    addVersion ((q, ws) :: rest) q ver =
      (q, if ws.contains ver then ws else ws ++ [ver]) :: rest := by
  simp [addVersion]

/-- Unfolding `addVersion` at a non-matching head key. -/
theorem addVersion_cons_ne {q pkg : String} (hq : q ≠ pkg) (ws : List String)
    (rest : List (String × List String)) (ver : String) :
    addVersion ((q, ws) :: rest) pkg ver = (q, ws) :: addVersion rest pkg ver := by
  simp [addVersion, hq]

/-- Adding a version makes its package key present with that version. -/
theorem addVersion_self : ∀ (acc : List (String × List String)) (pkg ver : String),
    ∃ vs, (pkg, vs) ∈ addVersion acc pkg ver ∧ ver ∈ vs := by
  intro acc pkg ver
  induction acc with
  | nil => exact ⟨[ver], List.mem_cons_self _ _, List.mem_cons_self _ _⟩
  | cons e rest ih =>
    obtain ⟨p, vs⟩ := e
    by_cases hp : p = pkg
    · subst hp
      rw [addVersion_cons_self]
      by_cases hv : vs.contains ver
      · rw [if_pos hv]
        exact ⟨vs, List.mem_cons_self _ _, by simpa using hv⟩
      · rw [if_neg hv]
        exact ⟨vs ++ [ver], List.mem_cons_self _ _, by simp⟩
    · rw [addVersion_cons_ne hp]
      rcases ih with ⟨vs', hmem, hver⟩
      exact ⟨vs', List.mem_cons.mpr (Or.inr hmem), hver⟩

/-- Adding a version preserves every package's accumulated versions (the
    version sets only grow). -/
theorem addVersion_preserves {p : String} {vs : List String} :
    ∀ (acc : List (String × List String)) (pkg ver : String),
      (p, vs) ∈ acc → ∃ vs', (p, vs') ∈ addVersion acc pkg ver ∧ vs ⊆ vs' := by
  intro acc
  induction acc with
  | nil => intro pkg ver h; cases h
  | cons e rest ih =>
    obtain ⟨q, ws⟩ := e
    intro pkg ver h
    by_cases hq : q = pkg
    · subst hq
      rw [addVersion_cons_self]
      rcases List.mem_cons.mp h with he | hmem
      · cases he
        refine ⟨if vs.contains ver then vs else vs ++ [ver],
          List.mem_cons_self _ _, ?_⟩
        by_cases hc : vs.contains ver
        · rw [if_pos hc]
          exact List.Subset.refl _
        · rw [if_neg hc]
          exact List.subset_append_left _ _
      · exact ⟨vs, List.mem_cons.mpr (Or.inr hmem), List.Subset.refl _⟩
    · rw [addVersion_cons_ne hq]
      rcases List.mem_cons.mp h with he | hmem
      · cases he
        exact ⟨vs, List.mem_cons_self _ _, List.Subset.refl _⟩
      · rcases ih pkg ver hmem with ⟨vs', hm, hsub⟩
        exact ⟨vs', List.mem_cons.mpr (Or.inr hm), hsub⟩

/-- Folding more resolutions over the map keeps accumulated versions. -/
theorem foldVersions_mono {p v : String} :
    ∀ (rs : List ResolvedImport) (acc : List (String × List String)),
      (∃ vs, (p, vs) ∈ acc ∧ v ∈ vs) →
      ∃ vs', (p, vs') ∈ rs.foldl (fun a r => addVersion a r.packageName r.version) acc ∧
        v ∈ vs' := by
  intro rs
  induction rs with
  | nil => intro acc h; exact h
  | cons r rest ih =>
    intro acc h
    rcases h with ⟨vs, hm, hv⟩
    apply ih
    rcases addVersion_preserves acc r.packageName r.version hm with ⟨vs', hm', hsub⟩
    exact ⟨vs', hm', hsub hv⟩

/-- Every resolved entry lands its version under its package key. -/
theorem buildVersions_mem :
    ∀ (rs : List ResolvedImport) (acc : List (String × List String))
      (r : ResolvedImport), r ∈ rs →
      ∃ vs, (r.packageName, vs) ∈
          rs.foldl (fun a x => addVersion a x.packageName x.version) acc ∧
        r.version ∈ vs := by
  intro rs
  induction rs with
  | nil => intro acc r h; cases h
  | cons x rest ih =>
    intro acc r h
    rcases List.mem_cons.mp h with rfl | hmem
    · simp only [List.foldl_cons]
      exact foldVersions_mono rest _ (addVersion_self acc r.packageName r.version)
    · simp only [List.foldl_cons]
      exact ih _ r hmem

/-- Which keys `addVersion` can introduce. -/
theorem addVersion_keys_mem :
    ∀ (acc : List (String × List String)) (pkg ver : String) (x : String),
      x ∈ (addVersion acc pkg ver).map Prod.fst →
      x ∈ acc.map Prod.fst ∨ x = pkg := by
  intro acc
  induction acc with
  | nil =>
    intro pkg ver x h
    simp [addVersion] at h
    exact Or.inr h
  | cons e rest ih =>
    obtain ⟨q, ws⟩ := e
    intro pkg ver x h
    by_cases hq : q = pkg
    · subst hq
      rw [addVersion_cons_self] at h
      simp only [List.map_cons] at h
      rcases List.mem_cons.mp h with rfl | hx
      · exact Or.inr rfl
      · exact Or.inl (List.mem_cons.mpr (Or.inr hx))
    · rw [addVersion_cons_ne hq] at h
      simp only [List.map_cons] at h
      rcases List.mem_cons.mp h with rfl | hx
      · exact Or.inl (by simp)
      · rcases ih pkg ver x hx with hl | hr
        · exact Or.inl (List.mem_cons.mpr (Or.inr hl))
        · exact Or.inr hr

/-- `addVersion` keeps the package keys duplicate-free. -/
theorem addVersion_nodup :
    ∀ (acc : List (String × List String)) (pkg ver : String),
      (acc.map Prod.fst).Nodup → ((addVersion acc pkg ver).map Prod.fst).Nodup := by
  intro acc
  induction acc with
  | nil => intro pkg ver _; simp [addVersion]
  | cons e rest ih =>
    obtain ⟨q, ws⟩ := e
    intro pkg ver hnd
    simp only [List.map_cons, List.nodup_cons] at hnd
    by_cases hq : q = pkg
    · subst hq
      rw [addVersion_cons_self]
      simp only [List.map_cons, List.nodup_cons]
      exact hnd
    · rw [addVersion_cons_ne hq]
      simp only [List.map_cons, List.nodup_cons]
      refine ⟨?_, ih pkg ver hnd.2⟩
      intro hmem
      rcases addVersion_keys_mem rest pkg ver q hmem with hl | hr
      · exact hnd.1 hl
      · exact hq hr

/-- The package keys of the whole versions map are duplicate-free. -/
theorem buildVersions_nodup :
    ∀ (rs : List ResolvedImport) (acc : List (String × List String)),
      (acc.map Prod.fst).Nodup →
      ((rs.foldl (fun a x => addVersion a x.packageName x.version) acc).map
        Prod.fst).Nodup := by
  intro rs
  induction rs with
  | nil => intro acc h; exact h
  | cons x rest ih =>
    intro acc h
    simp only [List.foldl_cons]
    exact ih _ (addVersion_nodup acc _ _ h)

/-- With duplicate-free keys, a key determines its version list. -/
theorem lookup_unique {p : String} {a b : List String} :
    ∀ m : List (String × List String), (m.map Prod.fst).Nodup →
      (p, a) ∈ m → (p, b) ∈ m → a = b := by
  intro m
  induction m with
  | nil => intro _ h; cases h
  | cons e rest ih =>
    obtain ⟨q, ws⟩ := e
    intro hnd ha hb
    simp only [List.map_cons, List.nodup_cons] at hnd
    rcases List.mem_cons.mp ha with hea | hma
    · cases hea
      rcases List.mem_cons.mp hb with heb | hmb
      · cases heb; rfl
      · exact absurd (List.mem_map.mpr ⟨(p, b), hmb, rfl⟩) hnd.1
    · rcases List.mem_cons.mp hb with heb | hmb
      · cases heb
        exact absurd (List.mem_map.mpr ⟨(p, a), hma, rfl⟩) hnd.1
      · exact ih hnd.2 hma hmb

/-- Two distinct members force a list beyond length one. -/
theorem two_mem_length {v1 v2 : String} {vs : List String}
    (h1 : v1 ∈ vs) (h2 : v2 ∈ vs) (hne : v1 ≠ v2) : 1 < vs.length := by
  cases vs with
  | nil => cases h1
  | cons a rest =>
    cases rest with
    | nil =>
      simp at h1 h2
      exact absurd (h1.trans h2.symm) hne
    | cons b t => simp

/-- A multi-version package contributes its conflict warning. -/
theorem conflict_warning_mem {rs : List ResolvedImport} {p : String}
    {vs : List String} (hmem : (p, vs) ∈ buildVersions rs) (hlen : 1 < vs.length) :
    versionConflictWarning p vs ∈ checkVersionConflicts rs := by
  unfold checkVersionConflicts
  apply List.mem_append_left
  exact List.mem_map.mpr ⟨(p, vs), List.mem_filter.mpr ⟨hmem, by simpa using hlen⟩, rfl⟩

/-- C4: any two resolved references sharing a normalized package name but
disagreeing on version make `checkVersionConflicts` emit a conflict
warning for that package listing both versions; and the two-reference
`gsap` scenario (versions `3.0.0` and `3.1.0`) produces exactly the one
warning naming `gsap` and both version strings. -/
theorem c4_version_conflicts_warned :
    (∀ (resolved : List ResolvedImport) (r1 r2 : ResolvedImport),
      r1 ∈ resolved → r2 ∈ resolved → r1.packageName = r2.packageName →
      r1.version ≠ r2.version →
      ∃ vs, versionConflictWarning r1.packageName vs ∈ checkVersionConflicts resolved ∧
        r1.version ∈ vs ∧ r2.version ∈ vs) ∧
    checkVersionConflicts
        [{ packageName := "gsap", url := "https://cdn.skypack.dev/gsap@3.0.0",
           version := "3.0.0", cdn := "skypack", originalSource := "gsap" },
         { packageName := "gsap", url := "https://cdn.skypack.dev/gsap@3.1.0",
           version := "3.1.0", cdn := "skypack", originalSource := "gsap" }] =
      [versionConflictWarning "gsap" ["3.0.0", "3.1.0"]] := by
  constructor
  · intro resolved r1 r2 h1 h2 hp hv
    obtain ⟨vs1, hm1, hv1⟩ := buildVersions_mem resolved [] r1 h1
    obtain ⟨vs2, hm2, hv2⟩ := buildVersions_mem resolved [] r2 h2
    have hnd := buildVersions_nodup resolved [] (by simp)
    rw [← hp] at hm2
    have heq : vs1 = vs2 := lookup_unique _ hnd hm1 hm2
    subst heq
    exact ⟨vs1, conflict_warning_mem hm1 (two_mem_length hv1 hv2 hv), hv1, hv2⟩
  · decide

/-- C4 witness: the universal half applied to the concrete gsap pair. -/
theorem c4_conflict_witness :
    ∃ vs, versionConflictWarning "gsap" vs ∈
        checkVersionConflicts
          [{ packageName := "gsap", url := "https://cdn.skypack.dev/gsap@3.0.0",
             version := "3.0.0", cdn := "skypack", originalSource := "gsap" },
           { packageName := "gsap", url := "https://cdn.skypack.dev/gsap@3.1.0",
             version := "3.1.0", cdn := "skypack", originalSource := "gsap" }] ∧
      "3.0.0" ∈ vs ∧ "3.1.0" ∈ vs :=
  c4_version_conflicts_warned.1 _
    { packageName := "gsap", url := "https://cdn.skypack.dev/gsap@3.0.0",
      version := "3.0.0", cdn := "skypack", originalSource := "gsap" }
    { packageName := "gsap", url := "https://cdn.skypack.dev/gsap@3.1.0",
      version := "3.1.0", cdn := "skypack", originalSource := "gsap" }
    (by decide) (by decide) rfl (by decide)
